import Mathlib

/-!
Verification of the Lincoln Commons ARO monitor (`src/scraper.py`).

The script performs one monitoring cycle: fetch a floorplans page, scan it
for ARO one-bedroom listings, and notify via email and SMS when an available
listing is found.  The embedding below mirrors the Python code:

* an HTML element tree (provided externally by the HTML library) is a list of
  elements, each with a tag name, an optional class attribute, and its
  visible text;
* `parse_aro_units` is the keyword scan of `LincolnCommonsMonitor.parse_aro_units`;
* `send_email_notification` / `send_sms_notification` model the notification
  channels, with the transport outcome (success or caught exception) passed
  in as a boolean, and the returned record also says whether a send was
  attempted at all;
* `fetch_floorplans` maps a network outcome (body or caught request error)
  to the optional page body;
* `monitor` is the orchestration of `LincolnCommonsMonitor.monitor`,
  instrumented with a trace recording which steps ran.
-/

namespace AroMonitor

/-- Lowercase a character sequence; models Python `str.lower()` on the texts involved. -/
def lowerChars (s : List Char) : List Char :=
  s.map Char.toLower

/-- Decide whether the first list is an initial segment of the second. -/
def isPrefixChars : List Char → List Char → Bool
  | [], _ => true
  | _ :: _, [] => false
  | a :: as, b :: bs => a == b && isPrefixChars as bs

/-- Decide whether `pat` occurs contiguously inside the second list; models
Python's `in` test on strings. -/
def hasInfixChars (pat : List Char) : List Char → Bool
  | [] => isPrefixChars pat []
  | c :: cs => isPrefixChars pat (c :: cs) || hasInfixChars pat cs

theorem isPrefixChars_iff (pat s : List Char) :
    isPrefixChars pat s = true ↔ ∃ r, s = pat ++ r := by
  induction pat generalizing s with
  | nil =>
    simp [isPrefixChars]
  | cons a as ih =>
    cases s with
    | nil => simp [isPrefixChars]
    | cons b bs =>
      simp only [isPrefixChars, Bool.and_eq_true, beq_iff_eq, ih, List.cons_append,
        List.cons.injEq]
      constructor
      · rintro ⟨hab, r, hr⟩
        exact ⟨r, hab.symm, hr⟩
      · rintro ⟨r, hba, hr⟩
        exact ⟨hba.symm, r, hr⟩

theorem hasInfixChars_iff (pat s : List Char) :
    hasInfixChars pat s = true ↔ ∃ l r, s = l ++ pat ++ r := by
  induction s with
  | nil =>
    simp only [hasInfixChars, isPrefixChars_iff]
    constructor
    · rintro ⟨r, hr⟩
      exact ⟨[], r, by simpa using hr⟩
    · rintro ⟨l, r, hr⟩
      cases l with
      | nil => exact ⟨r, by simpa using hr⟩
      | cons x xs => simp at hr
  | cons c cs ih =>
    simp only [hasInfixChars, Bool.or_eq_true, isPrefixChars_iff, ih]
    constructor
    · rintro (⟨r, hr⟩ | ⟨l, r, hr⟩)
      · exact ⟨[], r, by simpa using hr⟩
      · exact ⟨c :: l, r, by simp [hr]⟩
    · rintro ⟨l, r, hr⟩
      cases l with
      | nil => exact Or.inl ⟨r, by simpa using hr⟩
      | cons x xs =>
        simp only [List.cons_append, List.cons.injEq] at hr
        exact Or.inr ⟨xs, r, hr.2⟩

/-- An element of the parsed HTML tree, as the scan sees it: tag name, raw
class attribute (absent when the element has none), and its visible text
(`get_text()`). -/
structure Element where
  tag : String
  classAttr : Option String
  text : String
  deriving DecidableEq

/-- A parsed page is the sequence of elements the HTML library exposes. -/
abbrev Page := List Element

/-- The per-unit record built by `parse_aro_units` (the `unit_info` dict). -/
structure UnitInfo where
  type : String
  available : Bool
  text : String
  timestamp : String
  deriving DecidableEq

/-- Class-attribute keywords used to select candidate listings (line 97). -/
def classKeywords : List String :=
  ["apartment", "unit", "floorplan", "listing"]

/-- Tags searched by `find_all` (line 95). -/
def candidateTags : List String :=
  ["div", "article", "section"]

/-- Whether `find_all(['div', 'article', 'section'], class_=lambda x: x and any(...))`
selects the element: right tag, and a class attribute whose lowercased value
contains one of the keywords. -/
def isCandidate (e : Element) : Bool :=
  candidateTags.contains e.tag &&
    match e.classAttr with
    | none => false
    | some c => classKeywords.any (fun k => hasInfixChars k.data (lowerChars c.data))

/-- Python `str.strip()`: drop whitespace from both ends. -/
def stripChars (s : List Char) : List Char :=
  ((s.dropWhile Char.isWhitespace).reverse.dropWhile Char.isWhitespace).reverse

/-- The body of the listing loop (lines 99-111): keep the listing when its
lowercased text contains "aro" and "1 bed" or "one bed", and build the
`unit_info` record. -/
def processListing (now : String) (e : Element) : Option UnitInfo :=
  let textContent := lowerChars e.text.data
  if hasInfixChars "aro".data textContent &&
      (hasInfixChars "1 bed".data textContent ||
        hasInfixChars "one bed".data textContent) then
    some { type := "ARO One-Bedroom"
           available := hasInfixChars "available".data textContent ||
             hasInfixChars "now".data textContent
           text := String.mk ((stripChars e.text.data).take 200)
           timestamp := now }
  else
    none

/-- `parse_aro_units` (lines 84-118): select candidates, then keep the keyword
matches.  `now` is the timestamp the scan stamps into each record. -/
def parse_aro_units (now : String) (page : Page) : List UnitInfo :=
  (page.filter isCandidate).filterMap (processListing now)

/-- Python truthiness of an optional string setting: `None` and the empty
string are falsy, anything else is truthy. -/
def truthy : Option String → Bool
  | none => false
  | some s => !(s == "")

/-- The monitor's environment-sourced configuration (constructor, lines 57-71).
`twilio_client` records whether a messaging client object was built. -/
structure Config where
  email_address : Option String
  email_password : Option String
  notification_email : Option String
  twilio_client : Bool
  twilio_phone : Option String
  notification_phone : Option String

/-- Result of a notification call: the boolean the method returns, and whether
a transport send was attempted at all (false when the precondition check
skipped the channel). -/
structure SendOutcome where
  ok : Bool
  attempted : Bool
  deriving DecidableEq

/-- `send_email_notification` (lines 120-158).  `transportOk` stands for the
SMTP exchange succeeding; an exception is caught and yields `false`. -/
def send_email_notification (cfg : Config) (transportOk : Bool) : SendOutcome :=
  if truthy cfg.email_address && truthy cfg.email_password &&
      truthy cfg.notification_email then
    { ok := transportOk, attempted := true }
  else
    { ok := false, attempted := false }

/-- `send_sms_notification` (lines 160-180).  `transportOk` stands for the
messaging API call succeeding; an exception is caught and yields `false`. -/
def send_sms_notification (cfg : Config) (transportOk : Bool) : SendOutcome :=
  if cfg.twilio_client && truthy cfg.twilio_phone &&
      truthy cfg.notification_phone then
    { ok := transportOk, attempted := true }
  else
    { ok := false, attempted := false }

/-- `fetch_floorplans` (lines 73-82): a request error is caught and becomes
`None`; otherwise the response body is returned. -/
def fetch_floorplans (network : Except String String) : Option String :=
  match network with
  | Except.error _ => none
  | Except.ok body => some body

/-- Instrumented outcome of one `monitor` run: the returned boolean plus which
steps were reached (`scanned` = `parse_aro_units` was called, `emailInvoked` /
`smsInvoked` = the notification methods were called, `emailSent` / `smsSent` =
the booleans they returned). -/
structure MonitorTrace where
  result : Bool
  scanned : Bool
  emailInvoked : Bool
  smsInvoked : Bool
  emailSent : Bool
  smsSent : Bool
  deriving DecidableEq

/-- The trace of a cycle that stopped at the `if not html_content` guard:
nothing scanned, nothing notified, `False` returned. -/
def idleTrace : MonitorTrace :=
  { result := false, scanned := false, emailInvoked := false, smsInvoked := false,
    emailSent := false, smsSent := false }

/-- `monitor` (lines 182-212).  `parseHtml` models the external HTML library
turning the page body into an element tree; `network` is the outcome of the
GET request; `emailOk` / `smsOk` are the transport outcomes of the two
notification channels. -/
def monitor (cfg : Config) (now : String) (parseHtml : String → Page)
    (network : Except String String) (emailOk smsOk : Bool) : MonitorTrace :=
  match fetch_floorplans network with
  | none => idleTrace
  | some html =>
    if html == "" then idleTrace
    else
      let aro_units := parse_aro_units now (parseHtml html)
      let available_units := aro_units.filter (fun u => u.available)
      if available_units.isEmpty then
        { result := false, scanned := true, emailInvoked := false,
          smsInvoked := false, emailSent := false, smsSent := false }
      else
        let emailRes := send_email_notification cfg emailOk
        let smsRes := send_sms_notification cfg smsOk
        { result := true, scanned := true, emailInvoked := true,
          smsInvoked := true, emailSent := emailRes.ok, smsSent := smsRes.ok }

/-- Spec-side wording of case-insensitive substring containment: the
lowercasing of `pat` occurs contiguously inside the lowercasing of `s`. -/
def textContainsCI (s pat : String) : Prop :=
  ∃ l r, lowerChars s.data = l ++ lowerChars pat.data ++ r

/-- Executable form of `textContainsCI`. -/
def containsKeywordCI (s pat : String) : Bool :=
  hasInfixChars (lowerChars pat.data) (lowerChars s.data)

theorem containsKeywordCI_iff (s pat : String) :
    containsKeywordCI s pat = true ↔ textContainsCI s pat := by
  unfold containsKeywordCI textContainsCI
  exact hasInfixChars_iff (lowerChars pat.data) (lowerChars s.data)

/-- Spec-side wording of candidate selection: one of the three block tags, and
a class attribute containing one of the fixed keywords case-insensitively. -/
def candidateSpec (e : Element) : Prop :=
  (e.tag = "div" ∨ e.tag = "article" ∨ e.tag = "section") ∧
    ∃ c, e.classAttr = some c ∧ ∃ k, k ∈ classKeywords ∧ textContainsCI c k

theorem lowerChars_idem_on_classKeywords :
    ∀ k ∈ classKeywords, lowerChars k.data = k.data := by decide

/-- C8: the scan selects as candidates exactly the elements with tag `div`,
`article` or `section` whose class attribute contains one of "apartment",
"unit", "floorplan", "listing" as a case-insensitive substring. -/
theorem isCandidate_iff_candidateSpec (e : Element) :
    isCandidate e = true ↔ candidateSpec e := by
  unfold isCandidate candidateSpec
  cases hc : e.classAttr with
  | none => simp
  | some c =>
    simp only [Bool.and_eq_true, List.any_eq_true]
    constructor
    · rintro ⟨htag, k, hk, hinf⟩
      refine ⟨?_, c, rfl, k, hk, ?_⟩
      · have := List.elem_iff.mp htag
        simpa [candidateTags] using this
      · rw [← containsKeywordCI_iff]
        unfold containsKeywordCI
        rwa [lowerChars_idem_on_classKeywords k hk]
    · rintro ⟨htag, c2, hc2, k, hk, hct⟩
      have hcc : c2 = c := (Option.some.inj hc2).symm
      subst hcc
      refine ⟨?_, k, hk, ?_⟩
      · apply List.elem_iff.mpr
        simpa [candidateTags] using htag
      · rw [← containsKeywordCI_iff] at hct
        unfold containsKeywordCI at hct
        rwa [lowerChars_idem_on_classKeywords k hk] at hct

theorem textContainsCI_iff_code (s pat : String)
    (hpat : lowerChars pat.data = pat.data) :
    textContainsCI s pat ↔ hasInfixChars pat.data (lowerChars s.data) = true := by
  rw [← containsKeywordCI_iff]
  unfold containsKeywordCI
  rw [hpat]

/-- A candidate listing whose text matches every keyword inside the excerpt. -/
def sampleListing : Element :=
  { tag := "div", classAttr := some "unit-card", text := "ARO 1 bed available now" }

/-- The record the scan produces from `sampleListing` at timestamp "t0". -/
def sampleUnit : UnitInfo :=
  { type := "ARO One-Bedroom", available := true, text := "ARO 1 bed available now",
    timestamp := "t0" }

/-- An element the scan never selects (wrong tag). -/
def spanListing : Element :=
  { tag := "span", classAttr := some "unit", text := "aro 1 bed available" }

/-- A listing whose availability keyword appears only after the 200-character
excerpt boundary: the full text ends in "now", but the stored excerpt is the
first 200 characters and contains no availability keyword. -/
def lateKeywordListing : Element :=
  { tag := "div", classAttr := some "unit",
    text := "aro 1 bed " ++ String.mk (List.replicate 190 'z') ++ "now" }

/-- C3: the scan is a total function, and on any page without a candidate
element it returns no matches rather than failing. -/
theorem parse_no_candidates (now : String) (page : Page)
    (h : ∀ e ∈ page, isCandidate e = false) :
    parse_aro_units now page = [] := by
  unfold parse_aro_units
  have hf : page.filter isCandidate = [] := by
    rw [List.filter_eq_nil_iff]
    intro a ha
    simp [h a ha]
  rw [hf]
  rfl

theorem parse_no_candidates_witness :
    (∀ e ∈ ([spanListing] : Page), isCandidate e = false) ∧
      parse_aro_units "t0" [spanListing] = [] :=
  ⟨by decide, parse_no_candidates "t0" [spanListing] (by decide)⟩

/-- C4: a candidate element yields a match exactly when its lowercased text
contains "aro" together with "1 bed" or "one bed". -/
theorem candidate_match_iff (now : String) (e : Element)
    (h : isCandidate e = true) :
    parse_aro_units now [e] ≠ [] ↔
      (textContainsCI e.text "aro" ∧
        (textContainsCI e.text "1 bed" ∨ textContainsCI e.text "one bed")) := by
  rw [textContainsCI_iff_code e.text "aro" (by decide),
    textContainsCI_iff_code e.text "1 bed" (by decide),
    textContainsCI_iff_code e.text "one bed" (by decide)]
  unfold parse_aro_units
  simp only [List.filter_cons, h, if_pos, List.filter_nil, List.filterMap_cons,
    List.filterMap_nil]
  unfold processListing
  by_cases hcond : (hasInfixChars "aro".data (lowerChars e.text.data) &&
      (hasInfixChars "1 bed".data (lowerChars e.text.data) ||
        hasInfixChars "one bed".data (lowerChars e.text.data))) = true
  · rw [if_pos hcond]
    simp only [Bool.and_eq_true, Bool.or_eq_true] at hcond
    simp [hcond]
  · rw [if_neg hcond]
    simp only [Bool.and_eq_true, Bool.or_eq_true] at hcond
    simp [hcond]

theorem candidate_match_iff_witness :
    isCandidate sampleListing = true ∧
      (parse_aro_units "t0" [sampleListing] ≠ [] ↔
        (textContainsCI sampleListing.text "aro" ∧
          (textContainsCI sampleListing.text "1 bed" ∨
            textContainsCI sampleListing.text "one bed"))) :=
  ⟨by decide, candidate_match_iff "t0" sampleListing (by decide)⟩

/-- C2 counterexample: on `lateKeywordListing` the scan produces exactly one
match with `available = true`, yet the stored excerpt contains neither
"available" nor "now" case-insensitively, so availability is not determined by
the excerpt text. -/
theorem available_excerpt_mismatch :
    ((parse_aro_units "t0" [lateKeywordListing]).map (fun u => u.available)) = [true] ∧
      ((parse_aro_units "t0" [lateKeywordListing]).map
        (fun u => containsKeywordCI u.text "available" ||
          containsKeywordCI u.text "now")) = [false] := by
  constructor
  · decide
  · decide

/-- C2 amended: for every match the scan produces, `is_available` is true iff
the originating element's full visible text (not merely the stored
200-character excerpt) contains "available" or "now" case-insensitively. -/
theorem available_iff_fulltext (now : String) (e : Element) (u : UnitInfo)
    (h : processListing now e = some u) :
    u.available = true ↔
      (textContainsCI e.text "available" ∨ textContainsCI e.text "now") := by
  rw [textContainsCI_iff_code e.text "available" (by decide),
    textContainsCI_iff_code e.text "now" (by decide)]
  simp only [processListing] at h
  split at h
  · cases h
    simp [Bool.or_eq_true]
  · cases h

theorem available_iff_fulltext_witness :
    processListing "t0" sampleListing = some sampleUnit ∧
      (sampleUnit.available = true ↔
        (textContainsCI sampleListing.text "available" ∨
          textContainsCI sampleListing.text "now")) :=
  ⟨by decide, available_iff_fulltext "t0" sampleListing sampleUnit (by decide)⟩

/-- C9: every excerpt stored in a match has length at most 200 characters. -/
theorem excerpt_length_le (now : String) (page : Page) (u : UnitInfo)
    (h : u ∈ parse_aro_units now page) :
    u.text.length ≤ 200 := by
  unfold parse_aro_units at h
  obtain ⟨e, _, hpe⟩ := List.mem_filterMap.mp h
  simp only [processListing] at hpe
  split at hpe
  · cases hpe
    have hlen : (String.mk ((stripChars e.text.data).take 200)).length =
        ((stripChars e.text.data).take 200).length := rfl
    show (String.mk ((stripChars e.text.data).take 200)).length ≤ 200
    rw [hlen, List.length_take]
    exact min_le_left _ _
  · cases hpe

theorem excerpt_length_le_witness :
    sampleUnit ∈ parse_aro_units "t0" [sampleListing] ∧
      sampleUnit.text.length ≤ 200 :=
  ⟨by decide, excerpt_length_le "t0" [sampleListing] sampleUnit (by decide)⟩

/-- A configuration with every notification setting absent. -/
def unconfigured : Config :=
  { email_address := none, email_password := none, notification_email := none,
    twilio_client := false, twilio_phone := none, notification_phone := none }

/-- C6: when any of the three required email settings is absent, the email
channel returns false and attempts no send. -/
theorem email_skips_when_unconfigured (cfg : Config) (transportOk : Bool)
    (h : cfg.email_address = none ∨ cfg.email_password = none ∨
      cfg.notification_email = none) :
    send_email_notification cfg transportOk = { ok := false, attempted := false } := by
  unfold send_email_notification
  rcases h with h | h | h <;> simp [h, truthy]

theorem email_skips_when_unconfigured_witness :
    (unconfigured.email_address = none ∨ unconfigured.email_password = none ∨
      unconfigured.notification_email = none) ∧
      send_email_notification unconfigured true = { ok := false, attempted := false } :=
  ⟨Or.inl rfl, email_skips_when_unconfigured unconfigured true (Or.inl rfl)⟩

/-- C7: when the messaging client or either phone number is absent, the SMS
channel returns false and attempts no send. -/
theorem sms_skips_when_unconfigured (cfg : Config) (transportOk : Bool)
    (h : cfg.twilio_client = false ∨ cfg.twilio_phone = none ∨
      cfg.notification_phone = none) :
    send_sms_notification cfg transportOk = { ok := false, attempted := false } := by
  unfold send_sms_notification
  rcases h with h | h | h <;> simp [h, truthy]

theorem sms_skips_when_unconfigured_witness :
    (unconfigured.twilio_client = false ∨ unconfigured.twilio_phone = none ∨
      unconfigured.notification_phone = none) ∧
      send_sms_notification unconfigured true = { ok := false, attempted := false } :=
  ⟨Or.inl rfl, sms_skips_when_unconfigured unconfigured true (Or.inl rfl)⟩

/-- C5: a fetch failure is absorbed: `monitor` returns false without scanning
or invoking either notification channel, for every configuration and every
transport outcome. -/
theorem monitor_false_on_fetch_failure (cfg : Config) (now : String)
    (parseHtml : String → Page) (err : String) (emailOk smsOk : Bool) :
    monitor cfg now parseHtml (Except.error err) emailOk smsOk = idleTrace := rfl

/-- C10: a successfully fetched but empty page body takes the same early
return as a fetch failure: false, no scan, no notification. -/
theorem monitor_false_on_empty_page (cfg : Config) (now : String)
    (parseHtml : String → Page) (emailOk smsOk : Bool) :
    monitor cfg now parseHtml (Except.ok "") emailOk smsOk = idleTrace := rfl

/-- C1: whenever the scan of a non-empty fetched page yields at least one
available match, `monitor` returns true and invokes both notification
channels — the SMS attempt regardless of the email outcome — for every
configuration, even when both transports fail. -/
theorem monitor_reports_availability (cfg : Config) (now : String)
    (parseHtml : String → Page) (html : String) (emailOk smsOk : Bool)
    (hne : html ≠ "")
    (havail : (parse_aro_units now (parseHtml html)).filter
      (fun u => u.available) ≠ []) :
    (monitor cfg now parseHtml (Except.ok html) emailOk smsOk).result = true ∧
      (monitor cfg now parseHtml (Except.ok html) emailOk smsOk).emailInvoked = true ∧
      (monitor cfg now parseHtml (Except.ok html) emailOk smsOk).smsInvoked = true := by
  have h2 : ((parse_aro_units now (parseHtml html)).filter
      (fun u => u.available)).isEmpty = false :=
    List.isEmpty_eq_false.mpr havail
  simp [monitor, fetch_floorplans, hne, h2]

theorem monitor_reports_availability_witness :
    ("page" ≠ "" ∧
      (parse_aro_units "t0" [sampleListing]).filter (fun u => u.available) ≠ []) ∧
      (monitor unconfigured "t0" (fun _ => [sampleListing])
        (Except.ok "page") false false).result = true ∧
      (monitor unconfigured "t0" (fun _ => [sampleListing])
        (Except.ok "page") false false).emailInvoked = true ∧
      (monitor unconfigured "t0" (fun _ => [sampleListing])
        (Except.ok "page") false false).smsInvoked = true :=
  ⟨⟨by decide, by decide⟩,
    monitor_reports_availability unconfigured "t0" (fun _ => [sampleListing])
      "page" false false (by decide) (by decide)⟩

end AroMonitor
